import Mathlib

/-!
Verification of the data-usage accounting core of a distributed object
store (cmd/data-usage.go): per-shard prefix-usage aggregation
(loadPrefixUsageFromBackend), report persistence with schema migration
(loadDataUsageFromBackend) and the ingestion loop
(storeDataUsageInBackend), embedded shallowly and proved against the
claims of the specification.
-/

set_option autoImplicit false

/-- Modulus of Go's uint64 arithmetic; `m[p] += uint64(sz)` wraps here. -/
def U64 : Nat := 2 ^ 64

/-- Embedding of Go's `uint64(x)` conversion applied to an `int64` value:
reduction modulo 2^64, yielding a natural number below 2^64. -/
def toUint64 (i : Int) : Nat := (i % (U64 : Int)).toNat

/-- The `/` separator, constant `slashSeparator` of the source. -/
def slashSeparator : String := "/"

/-- Modelled from the spec: the directory-marker suffix that
`decodeDirObject` removes; the source's comment names the marker
`__XL_DIR__` and the spec says synthetic directory markers are decoded
to their logical form before prefixes are exposed. -/
def globalDirSuffix : String := "__XL_DIR__"

/-- Whether `pre` is a prefix of `s`, on the underlying character
lists (Go's `strings.HasPrefix`). -/
def strHasPrefix (s pre : String) : Bool :=
  pre.data.isPrefixOf s.data

/-- Whether `suf` is a suffix of `s`, on the underlying character
lists (Go's `strings.HasSuffix`). -/
def strHasSuffix (s suf : String) : Bool :=
  suf.data.isSuffixOf s.data

/-- Embedding of Go's `strings.TrimPrefix(s, pre)`: drop `pre` from the
front of `s` when `s` starts with it, otherwise return `s` unchanged. -/
def trimPrefixStr (s pre : String) : String :=
  if strHasPrefix s pre then { data := s.data.drop pre.data.length } else s

/-- Modelled from the spec: `decodeDirObject` (declared outside this
file's source) rewrites an identifier ending in the synthetic directory
marker back to its logical directory form; identifiers without the
marker pass through unchanged. -/
def decodeDirObject (obj : String) : String :=
  if strHasSuffix obj globalDirSuffix then
    { data := obj.data.take (obj.data.length - globalDirSuffix.data.length) }
      ++ slashSeparator
  else obj

/-- Modelled from the spec: one erasure set (shard) as seen by the
aggregator. `dataUsageCache.load`, `find` and `flattenChildrens` are
external to the source file, so a shard is abstracted by the outcome of
loading its snapshot: `loadErr` when `cache.load` returns a non-nil
error (not-found or decode failure), `ok none` when the load succeeds
but `cache.find(bucket)` is nil, and `ok (some es)` when the bucket root
is found and `flattenChildrens` of it yields the identifier/size pairs
`es` (sizes are the entries' own `int64` Size fields). -/
inductive ShardSnapshot where
  | loadErr
  | ok (flattened : Option (List (String × Int)))
  deriving Repr, DecidableEq

/-- The object layer passed to `loadPrefixUsageFromBackend`: either the
sharded erasure-coded implementation `*erasureServerPools`, carrying its
`serverPools` (each pool a list of erasure `sets`), or any other
implementation, for which the type assertion in the source fails. -/
inductive ObjectLayer where
  | erasureServerPools (serverPools : List (List ShardSnapshot))
  | other
  deriving Repr, DecidableEq

/-- Embedding of the Go statement `m[k] += v` on a `map[string]uint64`
represented as an association list: the value for `k` (0 when absent)
is increased by `v` with uint64 wrap-around. -/
def updAdd : List (String × Nat) → String → Nat → List (String × Nat)
  | [], k, v => [(k, (0 + v) % U64)]
  | (k', v') :: rest, k, v =>
    if k' = k then (k', (v' + v) % U64) :: rest
    else (k', v') :: updAdd rest k v

/-- Go map read `m[p]` on a `map[string]uint64` association list: the
first value stored under `p`, and 0 when `p` is absent. -/
def lookupD (m : List (String × Nat)) (p : String) : Nat :=
  match m with
  | [] => 0
  | (k, v) :: rest => if k = p then v else lookupD rest p

/-- Inner loop of `loadPrefixUsageFromBackend`: for each flattened
entry `(id, usageInfo)`, strip the `bucket + "/"` prefix from the
identifier, decode directory markers, and add `uint64(usageInfo.Size)`
into the running total for that prefix. -/
def addPrefixUsages (bucket : String) (m : List (String × Nat)) :
    List (String × Int) → List (String × Nat)
  | [] => m
  | (id, sz) :: rest =>
    addPrefixUsages bucket
      (updAdd m (decodeDirObject (trimPrefixStr id (bucket ++ slashSeparator)))
        (toUint64 sz)) rest

/-- Per-shard step of `loadPrefixUsageFromBackend`: a failed
`cache.load` is skipped (the `if err == nil` guard), a nil
`cache.find(bucket)` root is skipped (`continue`), and a found root's
flattened children are accumulated into `m`. -/
def loadShardUsage (bucket : String) (m : List (String × Nat)) :
    ShardSnapshot → List (String × Nat)
  | .loadErr => m
  | .ok none => m
  | .ok (some es) => addPrefixUsages bucket m es

/-- Loop over the erasure sets of one pool. -/
def loadPoolUsage (bucket : String) (m : List (String × Nat)) :
    List ShardSnapshot → List (String × Nat)
  | [] => m
  | er :: rest => loadPoolUsage bucket (loadShardUsage bucket m er) rest

/-- Loop over all server pools. -/
def loadPoolsUsage (bucket : String) (m : List (String × Nat)) :
    List (List ShardSnapshot) → List (String × Nat)
  | [] => m
  | pool :: rest => loadPoolsUsage bucket (loadPoolUsage bucket m pool) rest

/-- Embedding of `loadPrefixUsageFromBackend`: when the object layer is
not `*erasureServerPools` it returns an empty map and nil error;
otherwise it folds every pool's every erasure set into the prefix-usage
map and returns it with nil error. The second component is the Go
`error` result (`none` = nil). -/
def loadPrefixUsageFromBackend (objAPI : ObjectLayer) (bucket : String) :
    List (String × Nat) × Option Unit :=
  match objAPI with
  | .other => ([], none)
  | .erasureServerPools serverPools =>
    (loadPoolsUsage bucket [] serverPools, none)

/-- Specification-side sum: total contribution to prefix `p` of one
flattened entry list, before uint64 wrap-around. -/
def entriesSum (bucket p : String) : List (String × Int) → Nat
  | [] => 0
  | (id, sz) :: rest =>
    (if decodeDirObject (trimPrefixStr id (bucket ++ slashSeparator)) = p
     then toUint64 sz else 0) + entriesSum bucket p rest

/-- Specification-side sum: contribution of one shard to prefix `p`;
shards whose snapshot fails to load or lacks the bucket root
contribute 0. -/
def shardSum (bucket p : String) : ShardSnapshot → Nat
  | .loadErr => 0
  | .ok none => 0
  | .ok (some es) => entriesSum bucket p es

/-- Specification-side sum: contribution of one pool to prefix `p`. -/
def poolSum (bucket p : String) (pool : List ShardSnapshot) : Nat :=
  (pool.map (shardSum bucket p)).sum

/-- Specification-side sum: contribution of all pools to prefix `p`. -/
def poolsSum (bucket p : String) (pools : List (List ShardSnapshot)) : Nat :=
  (pools.map (poolSum bucket p)).sum

theorem U64_pos : 0 < U64 := by
  unfold U64; positivity

theorem toUint64_lt (i : Int) : toUint64 i < U64 := by
  have hpos : (0 : Int) < (U64 : Int) := by exact_mod_cast U64_pos
  have h := Int.emod_lt_of_pos i hpos
  have h0 : (0 : Int) ≤ i % (U64 : Int) := Int.emod_nonneg i (by exact_mod_cast hpos.ne')
  unfold toUint64
  omega

/-- Every value stored in the running map is below 2^64. -/
def boundedMap (m : List (String × Nat)) : Prop :=
  ∀ p, lookupD m p < U64

theorem boundedMap_nil : boundedMap [] := by
  intro p; simpa [lookupD] using U64_pos

theorem lookupD_updAdd (m : List (String × Nat)) (k : String) (v : Nat) (p : String) :
    lookupD (updAdd m k v) p =
      if p = k then (lookupD m p + v) % U64 else lookupD m p := by
  induction m with
  | nil =>
    by_cases h : k = p
    · subst h; simp [updAdd, lookupD]
    · have h' : ¬ p = k := fun hc => h hc.symm
      simp [updAdd, lookupD, h, h']
  | cons hd tl ih =>
    obtain ⟨k', v'⟩ := hd
    by_cases hk : k' = k
    · subst hk
      by_cases hp : p = k'
      · subst hp; simp [updAdd, lookupD]
      · have h' : ¬ k' = p := fun hc => hp hc.symm
        simp [updAdd, lookupD, hp, h']
    · by_cases hp : k' = p
      · subst hp
        simp [updAdd, lookupD, hk]
      · simp [updAdd, lookupD, hk, hp, ih]

theorem boundedMap_updAdd (m : List (String × Nat)) (k : String) (v : Nat)
    (hm : boundedMap m) : boundedMap (updAdd m k v) := by
  intro p
  rw [lookupD_updAdd]
  by_cases h : p = k
  · simp [h, Nat.mod_lt _ U64_pos]
  · simp [h, hm p]

theorem lookupD_addPrefixUsages (bucket p : String) (es : List (String × Int)) :
    ∀ m : List (String × Nat), boundedMap m →
      lookupD (addPrefixUsages bucket m es) p =
        (lookupD m p + entriesSum bucket p es) % U64 := by
  induction es with
  | nil =>
    intro m hm
    simp [addPrefixUsages, entriesSum, Nat.mod_eq_of_lt (hm p)]
  | cons hd tl ih =>
    intro m hm
    obtain ⟨id, sz⟩ := hd
    simp only [addPrefixUsages, entriesSum]
    rw [ih _ (boundedMap_updAdd m _ _ hm)]
    rw [lookupD_updAdd]
    by_cases h : p = decodeDirObject (trimPrefixStr id (bucket ++ slashSeparator))
    · simp [h, Nat.mod_add_mod, Nat.add_assoc]
    · have h' : ¬ decodeDirObject (trimPrefixStr id (bucket ++ slashSeparator)) = p :=
        fun hc => h hc.symm
      simp [h, h']

theorem boundedMap_addPrefixUsages (bucket : String) (es : List (String × Int)) :
    ∀ m : List (String × Nat), boundedMap m →
      boundedMap (addPrefixUsages bucket m es) := by
  induction es with
  | nil => intro m hm; simpa [addPrefixUsages] using hm
  | cons hd tl ih =>
    intro m hm
    obtain ⟨id, sz⟩ := hd
    exact ih _ (boundedMap_updAdd m _ _ hm)

theorem lookupD_loadShardUsage (bucket p : String) (er : ShardSnapshot)
    (m : List (String × Nat)) (hm : boundedMap m) :
    lookupD (loadShardUsage bucket m er) p =
      (lookupD m p + shardSum bucket p er) % U64 := by
  cases er with
  | loadErr => simp [loadShardUsage, shardSum, Nat.mod_eq_of_lt (hm p)]
  | ok o =>
    cases o with
    | none => simp [loadShardUsage, shardSum, Nat.mod_eq_of_lt (hm p)]
    | some es => exact lookupD_addPrefixUsages bucket p es m hm

theorem boundedMap_loadShardUsage (bucket : String) (er : ShardSnapshot)
    (m : List (String × Nat)) (hm : boundedMap m) :
    boundedMap (loadShardUsage bucket m er) := by
  cases er with
  | loadErr => simpa [loadShardUsage] using hm
  | ok o =>
    cases o with
    | none => simpa [loadShardUsage] using hm
    | some es => exact boundedMap_addPrefixUsages bucket es m hm

theorem lookupD_loadPoolUsage (bucket p : String) (pool : List ShardSnapshot) :
    ∀ m : List (String × Nat), boundedMap m →
      lookupD (loadPoolUsage bucket m pool) p =
        (lookupD m p + poolSum bucket p pool) % U64 := by
  induction pool with
  | nil =>
    intro m hm
    simp [loadPoolUsage, poolSum, Nat.mod_eq_of_lt (hm p)]
  | cons er rest ih =>
    intro m hm
    simp only [loadPoolUsage]
    rw [ih _ (boundedMap_loadShardUsage bucket er m hm)]
    rw [lookupD_loadShardUsage bucket p er m hm]
    simp [poolSum, Nat.mod_add_mod, Nat.add_assoc]

theorem boundedMap_loadPoolUsage (bucket : String) (pool : List ShardSnapshot) :
    ∀ m : List (String × Nat), boundedMap m →
      boundedMap (loadPoolUsage bucket m pool) := by
  induction pool with
  | nil => intro m hm; simpa [loadPoolUsage] using hm
  | cons er rest ih =>
    intro m hm
    exact ih _ (boundedMap_loadShardUsage bucket er m hm)

theorem lookupD_loadPoolsUsage (bucket p : String)
    (pools : List (List ShardSnapshot)) :
    ∀ m : List (String × Nat), boundedMap m →
      lookupD (loadPoolsUsage bucket m pools) p =
        (lookupD m p + poolsSum bucket p pools) % U64 := by
  induction pools with
  | nil =>
    intro m hm
    simp [loadPoolsUsage, poolsSum, Nat.mod_eq_of_lt (hm p)]
  | cons pool rest ih =>
    intro m hm
    simp only [loadPoolsUsage]
    rw [ih _ (boundedMap_loadPoolUsage bucket pool m hm)]
    rw [lookupD_loadPoolUsage bucket p pool m hm]
    simp [poolsSum, Nat.mod_add_mod, Nat.add_assoc]

/-- A shard whose `cache.load` succeeded. -/
def shardLoaded : ShardSnapshot → Bool
  | .loadErr => false
  | .ok _ => true

theorem loadPoolUsage_filter (bucket : String) (pool : List ShardSnapshot) :
    ∀ m : List (String × Nat),
      loadPoolUsage bucket m (pool.filter shardLoaded) =
        loadPoolUsage bucket m pool := by
  induction pool with
  | nil => intro m; rfl
  | cons er rest ih =>
    intro m
    cases er with
    | loadErr => simp [List.filter, shardLoaded, loadPoolUsage, loadShardUsage, ih]
    | ok o => simp [List.filter, shardLoaded, loadPoolUsage, ih]

theorem loadPoolsUsage_filter (bucket : String)
    (pools : List (List ShardSnapshot)) :
    ∀ m : List (String × Nat),
      loadPoolsUsage bucket m (pools.map (List.filter shardLoaded)) =
        loadPoolsUsage bucket m pools := by
  induction pools with
  | nil => intro m; rfl
  | cons pool rest ih =>
    intro m
    simp [loadPoolsUsage, loadPoolUsage_filter, ih]

/-- C1: for every bucket, `loadPrefixUsageFromBackend` maps each prefix
to the sum, over all shards whose snapshot loads and contains the
bucket root, of the flattened entry sizes for that prefix (keys have
the bucket prefix stripped and directory markers decoded; sums are
uint64 sums); on the concrete three-shard example the result is
x to 120 and y to 50. -/
theorem C1_loadPrefixUsage_additive :
    (∀ (pools : List (List ShardSnapshot)) (bucket p : String),
      lookupD (loadPrefixUsageFromBackend (.erasureServerPools pools) bucket).1 p
        = poolsSum bucket p pools % U64)
    ∧ loadPrefixUsageFromBackend
        (.erasureServerPools
          [[.ok (some [("bucket/x", 100), ("bucket/y", 50)]),
            .ok (some [("bucket/x", 20)]),
            .loadErr]]) "bucket"
        = ([("x", 120), ("y", 50)], none) := by
  constructor
  · intro pools bucket p
    have h := lookupD_loadPoolsUsage bucket p pools [] boundedMap_nil
    simpa [loadPrefixUsageFromBackend, lookupD] using h
  · decide

/-- C6: shards whose snapshot load fails are skipped silently and
contribute nothing: the aggregation over any pools equals the
aggregation over the same pools with all failed-load shards removed,
and no error is raised. -/
theorem C6_loadPrefixUsage_skips_failed_shards :
    ∀ (pools : List (List ShardSnapshot)) (bucket : String),
      loadPrefixUsageFromBackend (.erasureServerPools pools) bucket
        = loadPrefixUsageFromBackend
            (.erasureServerPools (pools.map (List.filter shardLoaded))) bucket
      ∧ (loadPrefixUsageFromBackend (.erasureServerPools pools) bucket).2 = none := by
  intro pools bucket
  constructor
  · simp [loadPrefixUsageFromBackend, loadPoolsUsage_filter]
  · rfl

/-- C7: for an object layer that is not `*erasureServerPools`, the
result is the empty mapping and nil error; the non-erasure branch never
inspects any shard, so no snapshot read is attempted. -/
theorem C7_loadPrefixUsage_non_erasure_empty :
    ∀ bucket : String,
      loadPrefixUsageFromBackend .other bucket = ([], none) := by
  intro bucket; rfl

/-- C10: `loadPrefixUsageFromBackend` never returns a non-nil error,
for any object layer, bucket and shard state; in particular a cluster
whose every shard snapshot is corrupted is indistinguishable from one
whose shards simply hold no usage for the bucket. -/
theorem C10_loadPrefixUsage_error_always_nil :
    (∀ (objAPI : ObjectLayer) (bucket : String),
      (loadPrefixUsageFromBackend objAPI bucket).2 = none)
    ∧ loadPrefixUsageFromBackend
        (.erasureServerPools [[.loadErr, .loadErr, .loadErr]]) "b"
      = loadPrefixUsageFromBackend
          (.erasureServerPools [[.ok none, .ok none, .ok none]]) "b" := by
  constructor
  · intro objAPI bucket
    cases objAPI <;> rfl
  · decide

/-- Per-bucket usage statistics (`BucketUsageInfo`): the fields read or
written by `loadDataUsageFromBackend` — the bucket size, object and
version counts, and the legacy single-target replication counters
(`...V1`). All values are Go `uint64`. -/
structure BucketUsageInfo where
  Size : Nat := 0
  ObjectsCount : Nat := 0
  VersionsCount : Nat := 0
  ReplicationPendingSizeV1 : Nat := 0
  ReplicationFailedSizeV1 : Nat := 0
  ReplicatedSizeV1 : Nat := 0
  ReplicationPendingCountV1 : Nat := 0
  ReplicationFailedCountV1 : Nat := 0
  deriving Repr, DecidableEq

/-- Per-replication-target usage statistics
(`BucketTargetUsageInfo`). -/
structure BucketTargetUsageInfo where
  ReplicationPendingSize : Nat := 0
  ReplicationFailedSize : Nat := 0
  ReplicatedSize : Nat := 0
  ReplicaSize : Nat := 0
  ReplicationPendingCount : Nat := 0
  ReplicationFailedCount : Nat := 0
  deriving Repr, DecidableEq

/-- The cluster-wide usage report (`DataUsageInfo`): the fields
`loadDataUsageFromBackend` reads or writes. Go maps are association
lists; `ReplicationInfo` is an `Option` so that a nil map (never
allocated) is distinguished from an allocated one, since the source
re-allocates it with `make` during migration. -/
structure DataUsageInfo where
  BucketsUsage : List (String × BucketUsageInfo) := []
  BucketSizes : List (String × Nat) := []
  ReplicationInfo : Option (List (String × BucketTargetUsageInfo)) := none
  deriving Repr, DecidableEq

/-- The zero value `DataUsageInfo{}` returned on all error paths. -/
def zeroDataUsageInfo : DataUsageInfo := {}

/-- Outcome of `GetObjectNInfo` followed by the JSON decode, as seen by
`loadDataUsageFromBackend`: the read may fail with object-not-found,
bucket-not-found or any other error, or succeed with content that
either fails to decode (`content none`) or decodes to a report. -/
inductive BackendRead where
  | errObjectNotFound
  | errBucketNotFound
  | errOther
  | content (decoded : Option DataUsageInfo)
  deriving Repr, DecidableEq

/-- The distinct error classes `loadDataUsageFromBackend` can return:
a wrapped read error, a JSON decode error, or an error from the
replication-configuration lookup during migration. -/
inductive LoadErr where
  | readErr
  | decodeErr
  | replCfgErr
  deriving Repr, DecidableEq

/-- The condition of the migration loop: any of the four tested legacy
counters non-zero (`bui.ReplicatedSizeV1 > 0 || ... ||
bui.ReplicationPendingCountV1 > 0`; the legacy pending size is not
tested). -/
def legacyReplNonzero (bui : BucketUsageInfo) : Bool :=
  bui.ReplicatedSizeV1 > 0 || bui.ReplicationFailedCountV1 > 0 ||
    bui.ReplicationFailedSizeV1 > 0 || bui.ReplicationPendingCountV1 > 0

/-- The `BucketTargetUsageInfo` literal built from a bucket's legacy
counters during migration. -/
def legacyTarget (bui : BucketUsageInfo) : BucketTargetUsageInfo :=
  { ReplicationFailedSize := bui.ReplicationFailedSizeV1
    ReplicationFailedCount := bui.ReplicationFailedCountV1
    ReplicatedSize := bui.ReplicatedSizeV1
    ReplicationPendingCount := bui.ReplicationPendingCountV1
    ReplicationPendingSize := bui.ReplicationPendingSizeV1 }

/-- First compatibility step of `loadDataUsageFromBackend`: an empty
`BucketsUsage` is synthesized from `BucketSizes`, one entry per bucket,
size copied and every other field defaulted. -/
def forwardCompat (d : DataUsageInfo) : DataUsageInfo :=
  if d.BucketsUsage.length = 0 then
    { d with BucketsUsage := d.BucketSizes.map (fun p => (p.1, { Size := p.2 })) }
  else d

/-- Second compatibility step of `loadDataUsageFromBackend`: an empty
`BucketSizes` is synthesized from `BucketsUsage` by extracting each
bucket's size field. -/
def backwardCompat (d : DataUsageInfo) : DataUsageInfo :=
  if d.BucketSizes.length = 0 then
    { d with BucketSizes := d.BucketsUsage.map (fun p => (p.1, p.2.Size)) }
  else d

/-- The two schema-compatibility steps of `loadDataUsageFromBackend`,
in source order. -/
def applyCompat (d : DataUsageInfo) : DataUsageInfo :=
  backwardCompat (forwardCompat d)

/-- The legacy replication migration loop of `loadDataUsageFromBackend`
over `info.BucketsUsage`: for each bucket whose tested legacy counters
are non-zero, `ReplicationInfo` is re-allocated with `make` (discarding
any previous contents), the bucket's replication configuration is
looked up (`replCfg`, `none` = lookup error, which aborts the load with
a zero report), and the single entry keyed by the configured RoleArn is
stored, carrying the legacy counter values. -/
def migrateRepl (replCfg : String → Option String) (info : DataUsageInfo) :
    List (String × BucketUsageInfo) → DataUsageInfo × Option LoadErr
  | [] => (info, none)
  | (bucket, bui) :: rest =>
    if legacyReplNonzero bui then
      match replCfg bucket with
      | none => (zeroDataUsageInfo, some .replCfgErr)
      | some arn =>
        migrateRepl replCfg
          { info with ReplicationInfo := some [(arn, legacyTarget bui)] } rest
    else migrateRepl replCfg info rest

/-- Embedding of `loadDataUsageFromBackend`: read the report object
(not-found yields the zero report with nil error, other read errors are
returned), decode it (decode failure is an error), apply the two
compatibility synthesis steps, then run the legacy replication
migration loop over the per-bucket usage map. -/
def loadDataUsageFromBackend (read : BackendRead)
    (replCfg : String → Option String) : DataUsageInfo × Option LoadErr :=
  match read with
  | .errObjectNotFound => (zeroDataUsageInfo, none)
  | .errBucketNotFound => (zeroDataUsageInfo, none)
  | .errOther => (zeroDataUsageInfo, some .readErr)
  | .content none => (zeroDataUsageInfo, some .decodeErr)
  | .content (some d) =>
    let d2 := applyCompat d
    migrateRepl replCfg d2 d2.BucketsUsage

/-- Go map read `m[k]` as an option, on an association list with keys
of type `String` and values of any type. -/
def lookupA {α : Type} (m : List (String × α)) (k : String) : Option α :=
  match m with
  | [] => none
  | (k', v) :: rest => if k' = k then some v else lookupA rest k

theorem lookupA_map {α β : Type} (f : α → β) (L : List (String × α)) (k : String) :
    lookupA (L.map (fun p => (p.1, f p.2))) k = (lookupA L k).map f := by
  induction L with
  | nil => rfl
  | cons hd tl ih =>
    obtain ⟨k', v⟩ := hd
    by_cases h : k' = k <;> simp [lookupA, h, ih]

theorem migrateRepl_none_preserves (replCfg : String → Option String)
    (bs : List (String × BucketUsageInfo)) :
    ∀ info : DataUsageInfo,
      (migrateRepl replCfg info bs).2 = none →
      (migrateRepl replCfg info bs).1.BucketsUsage = info.BucketsUsage ∧
      (migrateRepl replCfg info bs).1.BucketSizes = info.BucketSizes := by
  induction bs with
  | nil => intro info _; exact ⟨rfl, rfl⟩
  | cons hd rest ih =>
    intro info herr
    obtain ⟨bucket, bui⟩ := hd
    by_cases ht : legacyReplNonzero bui = true
    · cases hcfg : replCfg bucket with
      | none =>
        rw [migrateRepl, if_pos ht, hcfg] at herr
        simp at herr
      | some arn =>
        rw [migrateRepl, if_pos ht, hcfg] at herr ⊢
        exact ih _ herr
    · rw [migrateRepl, if_neg ht] at herr ⊢
      exact ih _ herr

theorem migrateRepl_no_trigger (replCfg : String → Option String)
    (bs : List (String × BucketUsageInfo))
    (h : ∀ p ∈ bs, legacyReplNonzero p.2 = false) :
    ∀ info : DataUsageInfo, migrateRepl replCfg info bs = (info, none) := by
  induction bs with
  | nil => intro info; rfl
  | cons hd rest ih =>
    intro info
    obtain ⟨bucket, bui⟩ := hd
    have hhd : legacyReplNonzero bui = false := h _ (List.mem_cons_self _ _)
    rw [migrateRepl, if_neg (by simp [hhd])]
    exact ih (fun p hp => h p (List.mem_cons_of_mem _ hp)) info

theorem migrateRepl_abort (replCfg : String → Option String)
    (bs : List (String × BucketUsageInfo)) :
    ∀ info : DataUsageInfo,
      (∃ p ∈ bs, legacyReplNonzero p.2 = true ∧ replCfg p.1 = none) →
      migrateRepl replCfg info bs = (zeroDataUsageInfo, some .replCfgErr) := by
  induction bs with
  | nil => intro info h; simp at h
  | cons hd rest ih =>
    intro info h
    obtain ⟨bucket, bui⟩ := hd
    by_cases ht : legacyReplNonzero bui = true
    · cases hcfg : replCfg bucket with
      | none => rw [migrateRepl, if_pos ht, hcfg]
      | some arn =>
        rw [migrateRepl, if_pos ht, hcfg]
        apply ih
        rcases h with ⟨p, hp, htp, hcp⟩
        rcases List.mem_cons.mp hp with heq | hmem
        · exfalso
          rw [heq] at htp hcp
          rw [hcp] at hcfg
          exact Option.noConfusion hcfg
        · exact ⟨p, hmem, htp, hcp⟩
    · rw [migrateRepl, if_neg ht]
      apply ih
      rcases h with ⟨p, hp, htp, hcp⟩
      rcases List.mem_cons.mp hp with heq | hmem
      · exfalso; rw [heq] at htp; exact ht htp
      · exact ⟨p, hmem, htp, hcp⟩

theorem migrateRepl_last (replCfg : String → Option String)
    (bs : List (String × BucketUsageInfo)) :
    ∀ (info : DataUsageInfo) (b : String) (bui : BucketUsageInfo) (arn : String),
      (∀ p ∈ bs, legacyReplNonzero p.2 = true → (replCfg p.1).isSome = true) →
      (bs.filter (fun p => legacyReplNonzero p.2)).getLast? = some (b, bui) →
      replCfg b = some arn →
      migrateRepl replCfg info bs =
        ({ info with ReplicationInfo := some [(arn, legacyTarget bui)] }, none) := by
  induction bs with
  | nil => intro info b bui arn _ hlast _; simp at hlast
  | cons hd rest ih =>
    intro info b bui arn hall hlast harn
    obtain ⟨bu, bsz, ri⟩ := info
    obtain ⟨b0, bui0⟩ := hd
    by_cases ht : legacyReplNonzero bui0 = true
    · have hs : (replCfg b0).isSome = true :=
        hall _ (List.mem_cons_self _ _) ht
      cases hcfg : replCfg b0 with
      | none => rw [hcfg] at hs; simp at hs
      | some arn0 =>
        rw [List.filter_cons_of_pos (by simpa using ht)] at hlast
        rw [migrateRepl, if_pos ht, hcfg]
        cases hrest : rest.filter (fun p => legacyReplNonzero p.2) with
        | nil =>
          rw [hrest] at hlast
          simp at hlast
          obtain ⟨hb, hbui⟩ := hlast
          subst hb; subst hbui
          rw [hcfg] at harn
          have harn0 : arn0 = arn := by injection harn
          subst harn0
          have hnone : ∀ p ∈ rest, legacyReplNonzero p.2 = false := by
            intro p hp
            by_contra hc
            have hmem : p ∈ rest.filter (fun p => legacyReplNonzero p.2) :=
              List.mem_filter.mpr ⟨hp, by simpa using hc⟩
            rw [hrest] at hmem
            simp at hmem
          exact migrateRepl_no_trigger replCfg rest hnone _
        | cons c t =>
          rw [hrest] at hlast
          rw [List.getLast?_cons_cons] at hlast
          rw [← hrest] at hlast
          exact ih _ b bui arn
            (fun p hp => hall p (List.mem_cons_of_mem _ hp)) hlast harn
    · rw [migrateRepl, if_neg ht]
      rw [List.filter_cons_of_neg (by simpa using ht)] at hlast
      exact ih _ b bui arn (fun p hp => hall p (List.mem_cons_of_mem _ hp)) hlast harn

theorem backwardCompat_busage (d : DataUsageInfo) :
    (backwardCompat d).BucketsUsage = d.BucketsUsage := by
  unfold backwardCompat; split <;> rfl

theorem forwardCompat_bsizes (d : DataUsageInfo) :
    (forwardCompat d).BucketSizes = d.BucketSizes := by
  unfold forwardCompat; split <;> rfl

theorem applyCompat_busage_of_empty (d : DataUsageInfo)
    (h : d.BucketsUsage = []) :
    (applyCompat d).BucketsUsage =
      d.BucketSizes.map (fun p => (p.1, { Size := p.2 })) := by
  rw [applyCompat, backwardCompat_busage, forwardCompat, if_pos (by simp [h])]

theorem applyCompat_bsizes_of_empty (d : DataUsageInfo)
    (h : d.BucketSizes = []) :
    (applyCompat d).BucketSizes =
      (forwardCompat d).BucketsUsage.map (fun p => (p.1, p.2.Size)) := by
  rw [applyCompat, backwardCompat, if_pos (by simp [forwardCompat_bsizes, h])]

theorem applyCompat_agree (d : DataUsageInfo)
    (h : d.BucketsUsage = [] ∨ d.BucketSizes = []) (b : String) :
    (lookupA (applyCompat d).BucketsUsage b).map (fun u => u.Size)
      = lookupA (applyCompat d).BucketSizes b := by
  by_cases hbs : d.BucketSizes = []
  · rw [applyCompat_bsizes_of_empty d hbs, lookupA_map, applyCompat,
      backwardCompat_busage]
  · have hbu : d.BucketsUsage = [] := h.resolve_right hbs
    rw [applyCompat_busage_of_empty d hbu,
      lookupA_map (fun v => ({ Size := v } : BucketUsageInfo))]
    have hsz : (applyCompat d).BucketSizes = d.BucketSizes := by
      rw [applyCompat, backwardCompat,
        if_neg (by simp [forwardCompat_bsizes]; exact hbs), forwardCompat_bsizes]
    rw [hsz]
    cases lookupA d.BucketSizes b <;> rfl

/-- C4: `loadDataUsageFromBackend` returns the zero report and nil
error when the backing object or its bucket does not exist; any other
read failure and any decode failure returns an error (with the zero
report). -/
theorem C4_load_absence_and_errors :
    ∀ replCfg : String → Option String,
      loadDataUsageFromBackend .errObjectNotFound replCfg = (zeroDataUsageInfo, none)
      ∧ loadDataUsageFromBackend .errBucketNotFound replCfg = (zeroDataUsageInfo, none)
      ∧ loadDataUsageFromBackend .errOther replCfg = (zeroDataUsageInfo, some .readErr)
      ∧ loadDataUsageFromBackend (.content none) replCfg
          = (zeroDataUsageInfo, some .decodeErr) := by
  intro replCfg
  exact ⟨rfl, rfl, rfl, rfl⟩

/-- C3: after a successful load, an empty newer per-bucket map is
synthesized from the older sizes (size copied, other fields defaulted),
an empty older map is synthesized from the newer one (size extracted),
and the two representations agree on sizes. -/
theorem C3_compat_synthesis (d : DataUsageInfo)
    (replCfg : String → Option String)
    (herr : (loadDataUsageFromBackend (.content (some d)) replCfg).2 = none) :
    (d.BucketsUsage = [] →
      (loadDataUsageFromBackend (.content (some d)) replCfg).1.BucketsUsage
        = d.BucketSizes.map (fun p => (p.1, { Size := p.2 })))
    ∧ (d.BucketSizes = [] →
      (loadDataUsageFromBackend (.content (some d)) replCfg).1.BucketSizes
        = (forwardCompat d).BucketsUsage.map (fun p => (p.1, p.2.Size)))
    ∧ ((d.BucketsUsage = [] ∨ d.BucketSizes = []) →
      ∀ b, (lookupA
              (loadDataUsageFromBackend (.content (some d)) replCfg).1.BucketsUsage
              b).map (fun u => u.Size)
        = lookupA
            (loadDataUsageFromBackend (.content (some d)) replCfg).1.BucketSizes b) := by
  have hload : loadDataUsageFromBackend (.content (some d)) replCfg
      = migrateRepl replCfg (applyCompat d) (applyCompat d).BucketsUsage := rfl
  have hpres := migrateRepl_none_preserves replCfg
    (applyCompat d).BucketsUsage (applyCompat d) (by rw [← hload]; exact herr)
  refine ⟨?_, ?_, ?_⟩
  · intro hbu
    rw [hload, hpres.1, applyCompat_busage_of_empty d hbu]
  · intro hbs
    rw [hload, hpres.2, applyCompat_bsizes_of_empty d hbs]
  · intro hor b
    rw [hload, hpres.1, hpres.2]
    exact applyCompat_agree d hor b

/-- C5: if the replication-configuration lookup fails for a bucket with
non-zero legacy replication counters during migration, the whole load
returns an error together with the zero-valued report. -/
theorem C5_replcfg_failure_aborts (d : DataUsageInfo)
    (replCfg : String → Option String)
    (h : ∃ p ∈ (applyCompat d).BucketsUsage,
      legacyReplNonzero p.2 = true ∧ replCfg p.1 = none) :
    loadDataUsageFromBackend (.content (some d)) replCfg
      = (zeroDataUsageInfo, some .replCfgErr) :=
  migrateRepl_abort replCfg (applyCompat d).BucketsUsage (applyCompat d) h

/-- A bucket whose legacy replicated size is non-zero. -/
def c2Bui1 : BucketUsageInfo := { ReplicatedSizeV1 := 100 }

/-- A second bucket whose legacy failed-replication size is non-zero. -/
def c2Bui2 : BucketUsageInfo := { ReplicationFailedSizeV1 := 7 }

/-- A decoded report in which two buckets carry non-zero legacy
replication counters. -/
def c2D : DataUsageInfo :=
  { BucketsUsage := [("b1", c2Bui1), ("b2", c2Bui2)]
    BucketSizes := [("b1", 0), ("b2", 0)] }

/-- A replication-configuration lookup giving each of the two buckets
its own target ARN. -/
def c2Cfg : String → Option String :=
  fun b =>
    if b = "b1" then some ("arn1")
    else if b = "b2" then some ("arn2") else none

/-- C2, counterexample: bucket b1 has non-zero legacy counters and the
configured target ARN arn1, the load succeeds, yet the resulting
per-target replication map holds no entry under arn1 — the map is
re-created for each qualifying bucket, so only the last bucket's entry
survives, refuting the claim that every such bucket's entry is present
simultaneously. -/
theorem C2_counterexample :
    legacyReplNonzero c2Bui1 = true
    ∧ c2Cfg ("b1") = some ("arn1")
    ∧ (loadDataUsageFromBackend (.content (some c2D)) c2Cfg).2 = none
    ∧ lookupA
        (((loadDataUsageFromBackend (.content (some c2D)) c2Cfg).1.ReplicationInfo).getD [])
        ("arn1") = none := by
  decide

/-- C2, amended: after a successful load of a report in which some
bucket has non-zero tested legacy replication counters, the per-target
replication map contains exactly one entry: it is keyed by the
configured target ARN of the last such bucket in iteration order and
carries that bucket's legacy counter values; all other report fields,
the legacy per-bucket counters included, are unchanged from the
compatibility-synthesized report. -/
theorem C2_replication_migration_last_only (d : DataUsageInfo)
    (replCfg : String → Option String) (b : String)
    (bui : BucketUsageInfo) (arn : String)
    (hall : ∀ p ∈ (applyCompat d).BucketsUsage,
      legacyReplNonzero p.2 = true → (replCfg p.1).isSome = true)
    (hlast : ((applyCompat d).BucketsUsage.filter
        (fun p => legacyReplNonzero p.2)).getLast? = some (b, bui))
    (harn : replCfg b = some arn) :
    loadDataUsageFromBackend (.content (some d)) replCfg
      = ({ applyCompat d with
            ReplicationInfo := some [(arn, legacyTarget bui)] }, none) :=
  migrateRepl_last replCfg (applyCompat d).BucketsUsage (applyCompat d)
    b bui arn hall hlast harn

/-- C2, witness: the amended theorem applied to the two-bucket report,
where the surviving entry is the one for b2 under arn2. -/
theorem C2_replication_migration_witness :
    loadDataUsageFromBackend (.content (some c2D)) c2Cfg
      = ({ applyCompat c2D with
            ReplicationInfo := some [("arn2", legacyTarget c2Bui2)] }, none) :=
  C2_replication_migration_last_only c2D c2Cfg ("b2") c2Bui2 ("arn2")
    (by decide) (by decide) (by decide)

/-- C3, witness: a report holding only the older per-bucket size map,
loaded with a configuration lookup that always fails (never consulted
here), has its newer per-bucket map synthesized from the sizes. -/
theorem C3_compat_synthesis_witness :
    (loadDataUsageFromBackend
        (.content (some { BucketSizes := [("b", 7)] }))
        (fun _ => none)).1.BucketsUsage
      = ([("b", 7)] : List (String × Nat)).map
          (fun p => (p.1, ({ Size := p.2 } : BucketUsageInfo))) :=
  (C3_compat_synthesis { BucketSizes := [("b", 7)] } (fun _ => none) rfl).1 rfl

/-- A report with one bucket whose legacy replicated size is
non-zero. -/
def c5D : DataUsageInfo :=
  { BucketsUsage := [("b", { ReplicatedSizeV1 := 5 })] }

/-- C5, witness: with the single qualifying bucket's configuration
lookup failing, the load aborts with the zero report and an error. -/
theorem C5_replcfg_failure_aborts_witness :
    (∃ p ∈ (applyCompat c5D).BucketsUsage,
      legacyReplNonzero p.2 = true
        ∧ (fun _ : String => (none : Option String)) p.1 = none)
    ∧ loadDataUsageFromBackend (.content (some c5D)) (fun _ => none)
        = (zeroDataUsageInfo, some .replCfgErr) :=
  ⟨by decide, C5_replcfg_failure_aborts c5D (fun _ => none) (by decide)⟩

/-- Outcome of processing one report inside the loop of
`storeDataUsageInBackend`: `json.Marshal` may fail, `hash.NewReader`
may fail, and `PutObject` may succeed, fail with bucket-not-found, or
fail with any other error. -/
inductive StoreOutcome where
  | marshalErr
  | hashErr
  | putOk
  | putErrBucketNotFound
  | putErrOther
  deriving Repr, DecidableEq

/-- Whether the branch `if !isErrBucketNotFound(err) { logger.LogIf(ctx,
err) }` after `PutObject` produces a log entry: only for a non-nil
error that is not bucket-not-found (`LogIf` ignores a nil error). -/
def putLogged : StoreOutcome → Bool
  | .putErrOther => true
  | _ => false

/-- Whether an outcome makes the loop `continue` before `PutObject`
(serialization or reader-construction failure, each logged). -/
def droppedBeforePut : StoreOutcome → Bool
  | .marshalErr => true
  | .hashErr => true
  | _ => false

/-- Observable trace of `storeDataUsageInBackend`: the reports consumed
from the channel in order, the reports for which a `PutObject` write
was attempted, and the reports whose failure was logged. -/
structure StoreTrace where
  stored : List DataUsageInfo
  puts : List DataUsageInfo
  logged : List DataUsageInfo
  deriving Repr, DecidableEq

/-- Embedding of `storeDataUsageInBackend`: the channel is the list of
reports received before the channel closes, each paired with the
outcome its processing meets. Every report is consumed; a marshal or
reader failure is logged and skips the write; a write is attempted
otherwise, its error logged unless it is nil or bucket-not-found; the
loop always proceeds to the next report and returns when the channel is
exhausted. -/
def storeDataUsageInBackend : List (DataUsageInfo × StoreOutcome) → StoreTrace
  | [] => { stored := [], puts := [], logged := [] }
  | (info, outcome) :: rest =>
    let t := storeDataUsageInBackend rest
    if droppedBeforePut outcome then
      { stored := info :: t.stored, puts := t.puts, logged := info :: t.logged }
    else if putLogged outcome then
      { stored := info :: t.stored, puts := info :: t.puts, logged := info :: t.logged }
    else
      { stored := info :: t.stored, puts := info :: t.puts, logged := t.logged }

/-- C8: in `storeDataUsageInBackend`, a bucket-not-found write failure
is swallowed (never logged), any other write failure and any
serialization failure is logged and drops only that report (a
serialization failure skips the write, a write failure does not), and
every report in the channel is consumed regardless of failures. -/
theorem C8_store_error_classification :
    ∀ chan : List (DataUsageInfo × StoreOutcome),
      (storeDataUsageInBackend chan).logged
        = (chan.filter
            (fun p => droppedBeforePut p.2 || putLogged p.2)).map (fun p => p.1)
      ∧ (storeDataUsageInBackend chan).puts
          = (chan.filter (fun p => !droppedBeforePut p.2)).map (fun p => p.1)
      ∧ (storeDataUsageInBackend chan).stored = chan.map (fun p => p.1)
      ∧ putLogged .putErrBucketNotFound = false := by
  intro chan
  induction chan with
  | nil => exact ⟨rfl, rfl, rfl, rfl⟩
  | cons hd rest ih =>
    obtain ⟨info, outcome⟩ := hd
    obtain ⟨ih1, ih2, ih3, _⟩ := ih
    refine ⟨?_, ?_, ?_, rfl⟩ <;>
      cases outcome <;>
        simp [storeDataUsageInBackend, droppedBeforePut, putLogged,
          List.filter, ih1, ih2, ih3]

/-- C9: feeding N reports and closing the channel yields exactly N
sequential store iterations, one per report in the order received, and
the loop terminates with no further work (the trace of a channel is the
channel's own report list). -/
theorem C9_store_processes_all_in_order :
    ∀ chan : List (DataUsageInfo × StoreOutcome),
      (storeDataUsageInBackend chan).stored = chan.map (fun p => p.1)
      ∧ (storeDataUsageInBackend chan).stored.length = chan.length := by
  intro chan
  induction chan with
  | nil => exact ⟨rfl, rfl⟩
  | cons hd rest ih =>
    obtain ⟨info, outcome⟩ := hd
    obtain ⟨ih1, ih2⟩ := ih
    constructor
    · cases outcome <;>
        simp [storeDataUsageInBackend, droppedBeforePut, putLogged, ih1]
    · cases outcome <;>
        simp [storeDataUsageInBackend, droppedBeforePut, putLogged, ih2]
